import Mathlib

/-!
Verification of the Bee-Tek card-shoe monitor core (`src/main.py`).

The stream classifier, card normalizer, HTTP dispatcher and the monitor
loop of `SerialMonitor.run` are embedded as executable Lean functions over
`List Char` buffers.  Regex matching is modelled by hand-written matchers
that follow the Python patterns (with `re.IGNORECASE`) character by
character, together with a left-to-right non-overlapping scanner that
models `findall` / `finditer` / `sub('')`.
-/

namespace ShoeMonitor

/-- ASCII lowercase, as `str.lower()` acts on the ASCII text produced by
`chunk.decode('ascii', errors='ignore')`. -/
def lc (c : Char) : Char :=
  if 'A' ≤ c ∧ c ≤ 'Z' then Char.ofNat (c.toNat + 32) else c

/-- ASCII uppercase, as `str.upper()` on ASCII text. -/
def uc (c : Char) : Char :=
  if 'a' ≤ c ∧ c ≤ 'z' then Char.ofNat (c.toNat - 32) else c

/-- Hexadecimal digit, the character class `[0-9A-Fa-f]` of `WARNING_PATTERN`. -/
def isHexCh (c : Char) : Bool :=
  ('0' ≤ c ∧ c ≤ '9') ∨ ('a' ≤ c ∧ c ≤ 'f') ∨ ('A' ≤ c ∧ c ≤ 'F')

/-- The character class `[2-9TJQKA]` of `CARD_PATTERN`, case-insensitive. -/
def isRankCh (c : Char) : Bool :=
  ('2' ≤ c ∧ c ≤ '9') ∨ lc c = 't' ∨ lc c = 'j' ∨ lc c = 'q' ∨ lc c = 'k' ∨ lc c = 'a'

/-- The character class `[CDHS]` of `CARD_PATTERN`, case-insensitive. -/
def isSuitCh (c : Char) : Bool :=
  lc c = 'c' ∨ lc c = 'd' ∨ lc c = 'h' ∨ lc c = 's'

/-- Match a literal pattern (given in lowercase) case-insensitively at the
head of the text, returning the rest of the text. Non-letter pattern
characters match themselves, as in the regexes. -/
def ciLit : List Char → List Char → Option (List Char)
  | [], s => some s
  | _ :: _, [] => none
  | p :: ps, t :: ts => if lc t = p then ciLit ps ts else none

/-- The tag alternation `(?:Game|Manual Burn Cards)\]` of `CARD_PATTERN` and
`FAILED_READ_PATTERN`, including the closing bracket. -/
def gameTag (s : List Char) : Option (List Char) :=
  match ciLit ['g','a','m','e',']'] s with
  | some r => some r
  | none => ciLit ['m','a','n','u','a','l',' ','b','u','r','n',' ','c','a','r','d','s',']'] s

/-- The tag alternation `(?:Game(?:Alarm)?|Manual Burn Cards)\]` of
`ALARM_PATTERN`.  `GameAlarm]` is tried before `Game]` (the regex engine's
greedy optional group followed by the mandatory `]` makes the alternatives
mutually exclusive). -/
def alarmTag (s : List Char) : Option (List Char) :=
  match ciLit ['g','a','m','e','a','l','a','r','m',']'] s with
  | some r => some r
  | none =>
    match ciLit ['g','a','m','e',']'] s with
    | some r => some r
    | none => ciLit ['m','a','n','u','a','l',' ','b','u','r','n',' ','c','a','r','d','s',']'] s

/-- `ALARM_PATTERN = ' \[(?:Game(?:Alarm)?|Manual Burn Cards)\]<Alarm:([^>]+)> '`
matched at the head of the text; returns the captured message (group 1,
original case) and the rest of the text after the match.  The greedy
`[^>]+` must stop exactly before the first `>`, which must be followed by
a space. -/
def matchAlarm (s : List Char) : Option (List Char × List Char) :=
  match ciLit [' ', '['] s with
  | none => none
  | some s1 =>
    match alarmTag s1 with
    | none => none
    | some s2 =>
      match ciLit ['<','a','l','a','r','m',':'] s2 with
      | none => none
      | some s3 =>
        match s3.takeWhile (fun c => c != '>') with
        | [] => none
        | m :: ms =>
          match ciLit ['>',' '] (s3.drop (m :: ms).length) with
          | none => none
          | some s4 => some (m :: ms, s4)

/-- `WARNING_PATTERN = '<(W0x[0-9A-Fa-f]+)>'` (IGNORECASE) matched at the
head of the text; returns the captured group (the `W0x` prefix in its
original case followed by the maximal hex run) and the rest. -/
def matchWarning (s : List Char) : Option (List Char × List Char) :=
  match s with
  | '<' :: rest =>
    match ciLit ['w','0','x'] rest with
    | none => none
    | some r1 =>
      match r1.takeWhile isHexCh with
      | [] => none
      | h :: hs =>
        match r1.drop (h :: hs).length with
        | '>' :: r2 => some (rest.take 3 ++ (h :: hs), r2)
        | _ => none
  | _ => none

/-- `FAILED_READ_PATTERN = ' \[(?:Game|Manual Burn Cards)\]<Game> '` matched
at the head of the text; no capture group. -/
def matchFailed (s : List Char) : Option (Unit × List Char) :=
  match ciLit [' ', '['] s with
  | none => none
  | some s1 =>
    match gameTag s1 with
    | none => none
    | some s2 =>
      match ciLit ['<','g','a','m','e','>',' '] s2 with
      | none => none
      | some s3 => some ((), s3)

/-- The rank alternation `([2-9TJQKA]|10)` of `CARD_PATTERN`: a single class
character (either case), or the literal `10` (the class excludes `1`, so the
alternatives are disjoint). Returns the captured rank text (original case)
and the rest. -/
def rankAlt : List Char → Option (List Char × List Char)
  | [] => none
  | c :: cs =>
    if isRankCh c then some ([c], cs)
    else if c = '1' then
      match cs with
      | '0' :: cs' => some (['1','0'], cs')
      | _ => none
    else none

/-- `CARD_PATTERN = ' \[(?:Game|Manual Burn Cards)\]<Card:([2-9TJQKA]|10)([CDHS])> '`
matched at the head of the text; returns the captured (rank, suit) groups
(original case) and the rest. -/
def matchCard (s : List Char) : Option ((List Char × Char) × List Char) :=
  match ciLit [' ', '['] s with
  | none => none
  | some s1 =>
    match gameTag s1 with
    | none => none
    | some s2 =>
      match ciLit ['<','c','a','r','d',':'] s2 with
      | none => none
      | some s3 =>
        match rankAlt s3 with
        | none => none
        | some (rk, s4) =>
          match s4 with
          | c :: s5 =>
            if isSuitCh c then
              match ciLit ['>',' '] s5 with
              | none => none
              | some s6 => some ((rk, c), s6)
            else none
          | [] => none

/-- Result of scanning a buffer with one pattern:
`found` are the captures in left-to-right order (`re.findall`),
`removed` is the buffer with every matched span deleted (`pattern.sub('', …)`),
`tailAfter` is the suffix of the buffer after the end of the last match
(`buffer[last_match.end():]`), or `none` when there is no match. -/
structure ScanOut (α : Type) where
  found : List α
  removed : List Char
  tailAfter : Option (List Char)
deriving DecidableEq

/-- Left-to-right non-overlapping scan, the shared semantics of
`findall` / `finditer` / `sub('')`: at each position try the matcher; on a
match record the capture and resume after the match, otherwise keep the
character and advance by one.  Fuel is consumed one unit per step; every
matcher consumes at least one character, so `fuel = s.length` (see `scanStr`)
never runs out. -/
def scanGo (m : List Char → Option (α × List Char)) : Nat → List Char → ScanOut α
  | 0, s => ⟨[], s, none⟩
  | _ + 1, [] => ⟨[], [], none⟩
  | fuel + 1, c :: cs =>
    match m (c :: cs) with
    | some (a, r) =>
      let q := scanGo m fuel r
      ⟨a :: q.found, q.removed, some (q.tailAfter.getD r)⟩
    | none =>
      let q := scanGo m fuel cs
      ⟨q.found, c :: q.removed, q.tailAfter⟩

/-- Scan a whole buffer (fuel = buffer length). -/
def scanStr (m : List Char → Option (α × List Char)) (s : List Char) : ScanOut α :=
  scanGo m s.length s

/-- `ALARM_PATTERN.findall(buffer)`: the captured alarm messages. -/
def alarmFindall (b : List Char) : List (List Char) := (scanStr matchAlarm b).found

/-- `ALARM_PATTERN.sub('', buffer)`. -/
def alarmSub (b : List Char) : List Char := (scanStr matchAlarm b).removed

/-- `WARNING_PATTERN.findall(buffer)`: the captured warning codes. -/
def warnFindall (b : List Char) : List (List Char) := (scanStr matchWarning b).found

/-- `WARNING_PATTERN.sub('', buffer)`. -/
def warnSub (b : List Char) : List Char := (scanStr matchWarning b).removed

/-- `FAILED_READ_PATTERN.findall(buffer)` (only the number of matches is used). -/
def failedFindall (b : List Char) : List Unit := (scanStr matchFailed b).found

/-- `FAILED_READ_PATTERN.sub('', buffer)`. -/
def failedSub (b : List Char) : List Char := (scanStr matchFailed b).removed

/-- `CARD_PATTERN.finditer(buffer)` data: captures plus the suffix after the
last match. -/
def cardScan (b : List Char) : ScanOut (List Char × Char) := scanStr matchCard b

/-- Exact-prefix test on character lists. -/
def listStartsWith : List Char → List Char → Bool
  | [], _ => true
  | _ :: _, [] => false
  | a :: as, b :: bs => a == b && listStartsWith as bs

/-- Substring containment, Python's `needle in hay`. -/
def listContains (needle : List Char) : List Char → Bool
  | [] => needle.isEmpty
  | c :: cs => listStartsWith needle (c :: cs) || listContains needle cs

/-- The alarm special-case test of `SerialMonitor.run`:
`"card not read" in alarm_msg.lower() or "e3" in alarm_msg.lower()`. -/
def hasFrag (m : List Char) : Bool :=
  listContains ['c','a','r','d',' ','n','o','t',' ','r','e','a','d'] (m.map lc) ||
  listContains ['e','3'] (m.map lc)

/-- One classified event, mirroring the notifications `SerialMonitor.run`
emits: `alarm m` is `on_error("ALARM: m")`, `readFailed r` is
`on_card("FAIL: r", False)`, `warning c` is `on_error("Warning: c")`, and
`cardRead code` is `on_card(code, True)`. -/
inductive Ev where
  | alarm (msg : List Char)
  | readFailed (reason : List Char)
  | warning (code : List Char)
  | cardRead (code : List Char)
deriving DecidableEq

/-- Recognizer for `Ev.alarm`. -/
def isAlarmEv : Ev → Bool
  | .alarm _ => true
  | _ => false

/-- Recognizer for `Ev.readFailed`. -/
def isRFEv : Ev → Bool
  | .readFailed _ => true
  | _ => false

/-- The events the alarm loop of `SerialMonitor.run` emits for the given
alarm matches, in loop order: one `alarm` per match, plus a `readFailed`
carrying the same message when the message has a card-not-read / E3
fragment. -/
def alarmEvents : List (List Char) → List Ev
  | [] => []
  | m :: ms =>
    Ev.alarm m :: ((if hasFrag m then [Ev.readFailed m] else []) ++ alarmEvents ms)

/-- The card normalization of `parse_cards_from_buffer`: uppercase both
captured groups, collapse the rank `10` to `T`, and emit `suit + rank`. -/
def normCard (g1 : List Char) (g2 : Char) : List Char :=
  let rank := g1.map uc
  let suit := uc g2
  let rank := if rank = ['1','0'] then ['T'] else rank
  suit :: rank

/-- `parse_cards_from_buffer` of `src/main.py`: all card captures of the
buffer, normalized. -/
def parse_cards_from_buffer (b : List Char) : List (List Char) :=
  (cardScan b).found.map (fun p => normCard p.1 p.2)

/-- PRIORITY 1 of `SerialMonitor.run`: if there are alarm matches, emit
their events and strip the matched spans (`ALARM_PATTERN.sub('', buffer)`). -/
def alarmStage (b : List Char) : List Ev × List Char :=
  let ms := alarmFindall b
  if ms = [] then ([], b) else (alarmEvents ms, alarmSub b)

/-- PRIORITY 2 of `SerialMonitor.run`: warning codes. -/
def warnStage (b : List Char) : List Ev × List Char :=
  let ws := warnFindall b
  if ws = [] then ([], b) else (ws.map Ev.warning, warnSub b)

/-- PRIORITY 3 of `SerialMonitor.run`: failed card reads; one
`readFailed "Unreadable"` per match. -/
def failedStage (b : List Char) : List Ev × List Char :=
  let fs := failedFindall b
  if fs = [] then ([], b)
  else (fs.map (fun _ => Ev.readFailed ['U','n','r','e','a','d','a','b','l','e']), failedSub b)

/-- The successful-card section of `SerialMonitor.run`: parse the cards; if
any, truncate the buffer to everything after the end of the last
`CARD_PATTERN` match and emit one `cardRead` per card. -/
def cardStage (b : List Char) : List Ev × List Char :=
  let cards := parse_cards_from_buffer b
  if cards = [] then ([], b)
  else (cards.map Ev.cardRead, ((cardScan b).tailAfter).getD b)

/-- Buffer after the alarm pass. -/
def bufAfterAlarm (b : List Char) : List Char := (alarmStage b).2

/-- Buffer after the warning pass. -/
def bufAfterWarn (b : List Char) : List Char := (warnStage (bufAfterAlarm b)).2

/-- Buffer after the failed-read pass. -/
def bufAfterFailed (b : List Char) : List Char := (failedStage (bufAfterWarn b)).2

/-- Buffer after the card pass (before the size cap). -/
def bufAfterCard (b : List Char) : List Char := (cardStage (bufAfterFailed b)).2

/-- The size cap of `SerialMonitor.run`:
`if len(text_buffer) > 2000: text_buffer = text_buffer[-1000:]`. -/
def capBuffer (b : List Char) : List Char :=
  if 2000 < b.length then b.drop (b.length - 1000) else b

/-- One full classification pass of `SerialMonitor.run` over the current
buffer: the four priority stages in order, events concatenated in emission
order, followed by the size cap. -/
def classifyPass (b : List Char) : List Ev × List Char :=
  ((alarmStage b).1 ++ (warnStage (bufAfterAlarm b)).1 ++
    (failedStage (bufAfterWarn b)).1 ++ (cardStage (bufAfterFailed b)).1,
   capBuffer (bufAfterCard b))

/-- An HTTP POST request as `send_card_http` builds it. -/
structure Request where
  url : List Char
  card : List Char
  timestamp : List Char
  contentType : List Char
deriving DecidableEq

/-- The URL construction of `send_card_http`:
`url_path = url.lstrip('/'); full_url = f"http://{ip}:{port}/{url_path}"`. -/
def buildUrl (ip : List Char) (port : Nat) (path : List Char) : List Char :=
  ['h','t','t','p',':','/','/'] ++ ip ++ ':' :: (Nat.repr port).toList ++
    '/' :: path.dropWhile (fun c => c = '/')

/-- The request `send_card_http` issues: built URL, JSON body fields
`card` and `timestamp`, and the `Content-Type: application/json` header. -/
def mkRequest (ip : List Char) (port : Nat) (path card ts : List Char) : Request :=
  ⟨buildUrl ip port path, card, ts,
   ['a','p','p','l','i','c','a','t','i','o','n','/','j','s','o','n']⟩

/-- `send_card_http` of `src/main.py`.  The HTTP transport is abstracted as
a function from the request to `Option Nat`: `some code` is a response
(status `code`) arriving within the timeout, `none` is a timeout or any
transport exception (the `except` branch).  Returns
`200 <= response.status_code < 300` on a response, `False` otherwise; it
never raises. -/
def send_card_http (transport : Request → Option Nat) (ip : List Char) (port : Nat)
    (path card ts : List Char) : Bool :=
  match transport (mkRequest ip port path card ts) with
  | none => false
  | some code => decide (200 ≤ code ∧ code < 300)

/-- The per-card loop of `SerialMonitor.run`: for each parsed card, dispatch
it over HTTP, then notify the UI with `on_card(card, True)` — the success
flag is the literal `True`, independent of the dispatch result.  Returns,
per card, the notification `(card, success_flag)` and the dispatch result. -/
def processCards (transport : Request → Option Nat) (ip : List Char) (port : Nat)
    (path ts : List Char) (cards : List (List Char)) :
    List ((List Char × Bool) × Bool) :=
  cards.map (fun c => ((c, true), send_card_http transport ip port path c ts))

/-- Outcome of one `serial.Serial(...)` open attempt in `SerialMonitor.run`:
success, or any of the exception branches (all of which sleep
`RETRY_DELAY` and `continue`). -/
inductive OpenRes where
  | ok
  | fail
deriving DecidableEq

/-- Outcome of one read iteration of `SerialMonitor.run`: no waiting bytes,
a decoded chunk, a `serial.SerialException`, or any other exception. -/
inductive ReadRes where
  | idle
  | bytes (chunk : List Char)
  | serialErr
  | otherExc
deriving DecidableEq

/-- A notification delivered to the UI observers. -/
inductive Note where
  | connected
  | disconnected
  | openError
  | ev (e : Ev)
deriving DecidableEq

/-- Time constants of the loop model, in hundredths of a time unit:
`RETRY_DELAY = 2.5`, the poll sleep `0.05`, and the `0.1` pause of the
generic exception handler. -/
def RETRY_DELAY_C : Nat := 250

/-- The poll sleep `time.sleep(0.05)` in hundredths of a time unit. -/
def POLL_C : Nat := 5

/-- The `time.sleep(0.1)` of the generic exception handler, in hundredths. -/
def EXC_PAUSE_C : Nat := 10

/-- State of the monitor worker in the timed loop model. -/
structure MState where
  time : Nat
  ser : Bool
  buf : List Char
  opens : Nat
  reads : Nat
  notes : List (Nat × Note)
  done : Bool
deriving DecidableEq

/-- The read section of one loop iteration of `SerialMonitor.run` (the
`try` block): poll, read-and-classify, serial read error (disconnect, close
the handle, wait `RETRY_DELAY`), or any other exception (swallowed after a
`0.1` pause, with buffer and handle untouched and nothing emitted). -/
def readPhase (er : Nat → ReadRes) (s : MState) : MState :=
  match er s.reads with
  | .idle => { s with reads := s.reads + 1, time := s.time + POLL_C }
  | .bytes chunk =>
    let r := classifyPass (s.buf ++ chunk)
    { s with reads := s.reads + 1, buf := r.2,
             notes := s.notes ++ r.1.map (fun e => (s.time, Note.ev e)),
             time := s.time + POLL_C }
  | .serialErr =>
    { s with reads := s.reads + 1, ser := false,
             notes := s.notes ++ [(s.time, Note.disconnected)],
             time := s.time + RETRY_DELAY_C }
  | .otherExc => { s with reads := s.reads + 1, time := s.time + EXC_PAUSE_C }

/-- One iteration of the `while` body of `SerialMonitor.run`: if no port is
open, attempt to open it — on failure emit the error notification, sleep
`RETRY_DELAY` uninterruptibly and `continue`; on success emit `connected`,
reset the buffer and fall through to the read section. -/
def stepBody (eo : Nat → OpenRes) (er : Nat → ReadRes) (s : MState) : MState :=
  if s.ser = false then
    match eo s.opens with
    | .ok =>
      readPhase er
        { s with ser := true, buf := [], opens := s.opens + 1,
                 notes := s.notes ++ [(s.time, Note.connected)] }
    | .fail =>
      { s with opens := s.opens + 1,
               notes := s.notes ++ [(s.time, Note.openError)],
               time := s.time + RETRY_DELAY_C }
  else readPhase er s

/-- The `while not self._stop_event.is_set()` loop of `SerialMonitor.run`,
with an external stop request at absolute time `ts`: the flag reads set
exactly when the current time has reached `ts`.  When the check observes
the flag the loop exits and the cleanup closes any open handle
(`done := true`, `ser := false`). -/
def runLoop (eo : Nat → OpenRes) (er : Nat → ReadRes) (ts : Nat) :
    Nat → MState → MState
  | 0, s => s
  | n + 1, s =>
    if ts ≤ s.time then { s with done := true, ser := false }
    else runLoop eo er ts n (stepBody eo er s)

/-- All rank tokens the card pattern's group 1 can capture: the class
characters in either case, or the literal `10`. -/
def validRankTok : List (List Char) :=
  [['2'],['3'],['4'],['5'],['6'],['7'],['8'],['9'],
   ['t'],['T'],['j'],['J'],['q'],['Q'],['k'],['K'],['a'],['A'],['1','0']]

/-- All suit tokens the card pattern's group 2 can capture, in either case. -/
def validSuitTok : List Char := ['c','C','d','D','h','H','s','S']

/-- The canonical rank of a captured rank token: uppercased, with the
literal `10` collapsed to `T`. -/
def rankOut (r : List Char) : List Char :=
  if r.map uc = ['1','0'] then ['T'] else r.map uc

/-- Example buffer holding a single alarm token with message
`E3 Card Not Read`. -/
def exAlarmBuf : List Char := " [Game]<Alarm:E3 Card Not Read> ".toList

/-- The alarm message of `exAlarmBuf`. -/
def exAlarmMsg : List Char := "E3 Card Not Read".toList

/-- Example buffer holding a single card token `4S`. -/
def exCardBuf : List Char := " [Game]<Card:4S> ".toList

/-! Helper lemmas about the scanner and the loop model. -/

/-- A scan that finds no match leaves the buffer unchanged under removal
(`pattern.sub('', b) = b` when `pattern.findall(b) = []`). -/
theorem scanGo_found_nil {α : Type} (m : List Char → Option (α × List Char)) :
    ∀ fuel s, (scanGo m fuel s).found = [] → (scanGo m fuel s).removed = s := by
  intro fuel
  induction fuel with
  | zero => intro s _; rfl
  | succ k ih =>
    intro s
    cases s with
    | nil => intro _; rfl
    | cons c cs =>
      rw [scanGo]
      cases h : m (c :: cs) with
      | some ar =>
        obtain ⟨a, r⟩ := ar
        intro hf
        exact absurd hf (List.cons_ne_nil _ _)
      | none =>
        intro hf
        dsimp only at hf ⊢
        rw [ih cs hf]

/-- A scan records a suffix after the last match exactly when it finds a
match. -/
theorem scanGo_tail_none {α : Type} (m : List Char → Option (α × List Char)) :
    ∀ fuel s, (scanGo m fuel s).tailAfter = none → (scanGo m fuel s).found = [] := by
  intro fuel
  induction fuel with
  | zero => intro s _; rfl
  | succ k ih =>
    intro s
    cases s with
    | nil => intro _; rfl
    | cons c cs =>
      rw [scanGo]
      cases h : m (c :: cs) with
      | some ar =>
        obtain ⟨a, r⟩ := ar
        intro ht
        exact absurd ht (Option.some_ne_none _)
      | none => exact ih cs

/-- The alarm pass leaves the buffer equal to `ALARM_PATTERN.sub('', b)`
whether or not there were matches. -/
theorem alarmStage_snd (b : List Char) : (alarmStage b).2 = alarmSub b := by
  unfold alarmStage
  by_cases h : alarmFindall b = []
  · simp only [h, if_pos rfl]
    exact (scanGo_found_nil matchAlarm b.length b h).symm
  · simp [h]

/-- The warning pass leaves the buffer equal to `WARNING_PATTERN.sub('', b)`. -/
theorem warnStage_snd (b : List Char) : (warnStage b).2 = warnSub b := by
  unfold warnStage
  by_cases h : warnFindall b = []
  · simp only [h, if_pos rfl]
    exact (scanGo_found_nil matchWarning b.length b h).symm
  · simp [h]

/-- The failed-read pass leaves the buffer equal to
`FAILED_READ_PATTERN.sub('', b)`. -/
theorem failedStage_snd (b : List Char) : (failedStage b).2 = failedSub b := by
  unfold failedStage
  by_cases h : failedFindall b = []
  · simp only [h, if_pos rfl]
    exact (scanGo_found_nil matchFailed b.length b h).symm
  · simp [h]

/-- One `alarm` event is emitted per alarm match. -/
theorem alarmEvents_countP_alarm :
    ∀ ms, (alarmEvents ms).countP isAlarmEv = ms.length := by
  intro ms
  induction ms with
  | nil => rfl
  | cons m rest ih =>
    by_cases hf : hasFrag m = true
    · simp [alarmEvents, hf, List.countP_cons, isAlarmEv, ih]
    · simp [alarmEvents, hf, List.countP_cons, isAlarmEv, ih]

/-- One `readFailed` event is emitted per alarm match whose message has a
card-not-read / E3 fragment. -/
theorem alarmEvents_countP_rf :
    ∀ ms, (alarmEvents ms).countP isRFEv = (ms.filter hasFrag).length := by
  intro ms
  induction ms with
  | nil => rfl
  | cons m rest ih =>
    by_cases hf : hasFrag m = true
    · simp [alarmEvents, hf, List.countP_cons, isRFEv, ih]
    · simp [alarmEvents, hf, List.countP_cons, isRFEv, ih]

/-- Every `readFailed` the alarm loop emits carries the message of a match
with the fragment. -/
theorem alarmEvents_rf_mem :
    ∀ ms m, Ev.readFailed m ∈ alarmEvents ms → hasFrag m = true ∧ m ∈ ms := by
  intro ms
  induction ms with
  | nil => intro m h; cases h
  | cons a rest ih =>
    intro m h
    by_cases hf : hasFrag a = true
    · simp only [alarmEvents, hf, if_true, List.mem_cons, List.mem_append,
        List.mem_singleton, Ev.readFailed.injEq, reduceCtorEq, false_or] at h
      rcases h with (rfl | h0) | h
      · exact ⟨hf, List.mem_cons_self _ _⟩
      · exact absurd h0 (List.not_mem_nil _)
      · rcases ih m h with ⟨h1, h2⟩
        exact ⟨h1, List.mem_cons_of_mem a h2⟩
    · simp only [alarmEvents, hf, if_false, List.nil_append, List.mem_cons,
        reduceCtorEq, false_or] at h
      rcases ih m h with ⟨h1, h2⟩
      exact ⟨h1, List.mem_cons_of_mem a h2⟩

/-- No pattern can match at a position holding an `x`: all four patterns
start with a space or a `<`. -/
theorem matchAlarm_x (cs : List Char) : matchAlarm ('x' :: cs) = none := rfl

/-- The warning pattern cannot match at an `x`. -/
theorem matchWarning_x (cs : List Char) : matchWarning ('x' :: cs) = none := rfl

/-- The failed-read pattern cannot match at an `x`. -/
theorem matchFailed_x (cs : List Char) : matchFailed ('x' :: cs) = none := rfl

/-- The card pattern cannot match at an `x`. -/
theorem matchCard_x (cs : List Char) : matchCard ('x' :: cs) = none := rfl

/-- A scan over a buffer on which the matcher never fires returns the buffer
unchanged, with no captures. -/
theorem scanGo_rep {α : Type} (m : List Char → Option (α × List Char))
    (hm : ∀ cs, m ('x' :: cs) = none) :
    ∀ fuel n, scanGo m fuel (List.replicate n 'x') =
      ⟨[], List.replicate n 'x', none⟩ := by
  intro fuel
  induction fuel with
  | zero => intro n; rfl
  | succ k ih =>
    intro n
    cases n with
    | zero => rfl
    | succ j =>
      rw [List.replicate_succ]
      simp only [scanGo, hm, ih j]

/-- The alarm pass is a no-op on a token-free buffer of `x`s. -/
theorem alarmStage_rep (n : Nat) :
    alarmStage (List.replicate n 'x') = ([], List.replicate n 'x') := by
  have ha : alarmFindall (List.replicate n 'x') = [] := by
    unfold alarmFindall scanStr
    rw [scanGo_rep matchAlarm matchAlarm_x]
  unfold alarmStage
  simp [ha]

/-- The warning pass is a no-op on a token-free buffer of `x`s. -/
theorem warnStage_rep (n : Nat) :
    warnStage (List.replicate n 'x') = ([], List.replicate n 'x') := by
  have hw : warnFindall (List.replicate n 'x') = [] := by
    unfold warnFindall scanStr
    rw [scanGo_rep matchWarning matchWarning_x]
  unfold warnStage
  simp [hw]

/-- The failed-read pass is a no-op on a token-free buffer of `x`s. -/
theorem failedStage_rep (n : Nat) :
    failedStage (List.replicate n 'x') = ([], List.replicate n 'x') := by
  have hf : failedFindall (List.replicate n 'x') = [] := by
    unfold failedFindall scanStr
    rw [scanGo_rep matchFailed matchFailed_x]
  unfold failedStage
  simp [hf]

/-- The card pass is a no-op on a token-free buffer of `x`s. -/
theorem cardStage_rep (n : Nat) :
    cardStage (List.replicate n 'x') = ([], List.replicate n 'x') := by
  have hc : parse_cards_from_buffer (List.replicate n 'x') = [] := by
    unfold parse_cards_from_buffer cardScan scanStr
    rw [scanGo_rep matchCard matchCard_x]
    rfl
  unfold cardStage
  simp [hc]

/-- A token-free buffer of `x`s passes through all four stages unchanged. -/
theorem bufAfterCard_rep (n : Nat) :
    bufAfterCard (List.replicate n 'x') = List.replicate n 'x' := by
  simp [bufAfterCard, bufAfterFailed, bufAfterWarn, bufAfterAlarm,
    alarmStage_rep, warnStage_rep, failedStage_rep, cardStage_rep]

/-- A classification pass over a token-free buffer of `x`s emits no events
and only applies the size cap. -/
theorem classifyPass_rep (n : Nat) :
    classifyPass (List.replicate n 'x') = ([], capBuffer (List.replicate n 'x')) := by
  simp [classifyPass, bufAfterCard, bufAfterFailed, bufAfterWarn, bufAfterAlarm,
    alarmStage_rep, warnStage_rep, failedStage_rep, cardStage_rep]

/-- `lstrip('/')` leaves no leading slash. -/
theorem dropWhile_slash_head (l : List Char) :
    (l.dropWhile (fun c => c = '/')).head? ≠ some '/' := by
  induction l with
  | nil => simp
  | cons c cs ih =>
    by_cases h : c = '/'
    · simpa [List.dropWhile, h] using ih
    · simp [List.dropWhile, h]

/-- `readPhase` never sets the done flag. -/
theorem readPhase_done (er : Nat → ReadRes) (s : MState) :
    (readPhase er s).done = s.done := by
  unfold readPhase
  cases er s.reads <;> rfl

/-- `readPhase` never attempts an open. -/
theorem readPhase_opens (er : Nat → ReadRes) (s : MState) :
    (readPhase er s).opens = s.opens := by
  unfold readPhase
  cases er s.reads <;> rfl

/-- One loop iteration never sets the done flag; only the stop check does. -/
theorem stepBody_done (eo : Nat → OpenRes) (er : Nat → ReadRes) (s : MState) :
    (stepBody eo er s).done = s.done := by
  unfold stepBody
  by_cases h : s.ser = false
  · rw [if_pos h]
    cases eo s.opens
    · rw [readPhase_done]
    · rfl
  · rw [if_neg h, readPhase_done]

/-- The loop exits with the done flag set only when the stop request time
has been reached at the observing check, and the final time is past it. -/
theorem runLoop_done_le (eo : Nat → OpenRes) (er : Nat → ReadRes) (ts : Nat) :
    ∀ n s, s.done = false → (runLoop eo er ts n s).done = true →
      ts ≤ (runLoop eo er ts n s).time := by
  intro n
  induction n with
  | zero =>
    intro s h0 h1
    rw [runLoop] at h1
    rw [h0] at h1
    cases h1
  | succ k ih =>
    intro s h0 h1
    rw [runLoop] at h1 ⊢
    by_cases hts : ts ≤ s.time
    · simp [hts]
    · rw [if_neg hts] at h1 ⊢
      have hd : (stepBody eo er s).done = false := by
        rw [stepBody_done]; exact h0
      exact ih (stepBody eo er s) hd h1

/-! Claim theorems. -/

/-- C1, counterexample.  For the buffer ` [Game]<Card:4S> [Game]<Card:KH> `
(single space between the tokens, as in the claim), one classification pass
yields exactly ONE `CardRead` event — `(4,S)` only — and the residual buffer
is `[Game]<Card:KH> `, not the empty string: the first match consumes the
shared middle space, so the second token lacks the leading space the
pattern requires.  This refutes the claim's "exactly two CardRead events …
and the residual buffer afterwards is the empty string". -/
theorem C1_counterexample :
    parse_cards_from_buffer " [Game]<Card:4S> [Game]<Card:KH> ".toList = [['S','4']] ∧
    (classifyPass " [Game]<Card:4S> [Game]<Card:KH> ".toList).1.length = 1 ∧
    (classifyPass " [Game]<Card:4S> [Game]<Card:KH> ".toList).2 =
      "[Game]<Card:KH> ".toList := by decide

/-- C1, amended.  For the buffer ` [Game]<Card:4S> [Game]<Card:KH> ` one
classification pass yields exactly one `CardRead` event `(4,S)` (code `S4`)
and the residual buffer is `[Game]<Card:KH> `, because the single space
between the tokens is consumed by the first match; with two spaces between
the tokens the pass yields the two events `(4,S)` then `(K,H)` and the
residual buffer is empty. -/
theorem C1_theorem :
    classifyPass " [Game]<Card:4S> [Game]<Card:KH> ".toList =
      ([Ev.cardRead ['S','4']], "[Game]<Card:KH> ".toList) ∧
    classifyPass " [Game]<Card:4S>  [Game]<Card:KH> ".toList =
      ([Ev.cardRead ['S','4'], Ev.cardRead ['H','K']], []) := by decide

/-- C2, counterexample.  For the buffer ` [Game]<Alarm:E<W0x1>3> ` the alarm
pass finds nothing and leaves the buffer unchanged, but after the warning
pass removes `<W0x1>` the buffer ` [Game]<Alarm:E3> ` DOES match the
already-processed higher-priority alarm pattern: removal of lower-priority
matches can create text matching a higher-priority pattern before card
parsing is attempted, refuting the claimed invariant. -/
theorem C2_counterexample :
    alarmFindall " [Game]<Alarm:E<W0x1>3> ".toList = [] ∧
    bufAfterAlarm " [Game]<Alarm:E<W0x1>3> ".toList =
      " [Game]<Alarm:E<W0x1>3> ".toList ∧
    bufAfterWarn " [Game]<Alarm:E<W0x1>3> ".toList = " [Game]<Alarm:E3> ".toList ∧
    alarmFindall (bufAfterWarn " [Game]<Alarm:E<W0x1>3> ".toList) =
      ["E3".toList] := by decide

/-- C2, amended.  For every buffer content, after each priority class is
processed the spans matched in that pass are removed: the buffer handed to
the next class is exactly the match-removal (`pattern.sub('', …)`) of that
pass's input, whether or not any match was found.  However, those removals
can concatenate the surrounding text into NEW occurrences of an
already-processed higher-priority pattern, which are not re-detected before
card parsing (see the counterexample). -/
theorem C2_theorem (b : List Char) :
    bufAfterAlarm b = alarmSub b ∧
    bufAfterWarn b = warnSub (alarmSub b) ∧
    bufAfterFailed b = failedSub (warnSub (alarmSub b)) := by
  have h1 : bufAfterAlarm b = alarmSub b := alarmStage_snd b
  have h2 : bufAfterWarn b = warnSub (alarmSub b) := by
    unfold bufAfterWarn
    rw [h1, warnStage_snd]
  refine ⟨h1, h2, ?_⟩
  unfold bufAfterFailed
  rw [h2, failedStage_snd]

/-- C3.  For every buffer: the alarm pass emits exactly one `Alarm` event
per alarm match, and an additional `ReadFailed` carrying the alarm message
as its reason exactly for those matches whose message contains the fragment
`card not read` or `e3` case-insensitively (every emitted `ReadFailed`
comes from such a match); the matched alarm spans are removed from the
buffer handed to the warning pass.  In particular, a buffer holding the
single alarm ` [Game]<Alarm:E3 Card Not Read> ` yields exactly one `Alarm`
plus one `ReadFailed` event and the alarm text is removed. -/
theorem C3_theorem (b : List Char) :
    ((alarmStage b).1.countP isAlarmEv = (alarmFindall b).length) ∧
    ((alarmStage b).1.countP isRFEv = ((alarmFindall b).filter hasFrag).length) ∧
    (∀ m, Ev.readFailed m ∈ (alarmStage b).1 → hasFrag m = true ∧ m ∈ alarmFindall b) ∧
    ((alarmStage b).2 = alarmSub b) ∧
    (alarmStage " [Game]<Alarm:E3 Card Not Read> ".toList =
      ([Ev.alarm "E3 Card Not Read".toList,
        Ev.readFailed "E3 Card Not Read".toList], [])) := by
  refine ⟨?_, ?_, ?_, alarmStage_snd b, by decide⟩
  · unfold alarmStage
    by_cases h : alarmFindall b = [] <;> simp [h, alarmEvents_countP_alarm]
  · unfold alarmStage
    by_cases h : alarmFindall b = [] <;> simp [h, alarmEvents_countP_rf]
  · intro m hm
    unfold alarmStage at hm
    by_cases h : alarmFindall b = []
    · rw [if_pos h] at hm
      exact absurd hm (List.not_mem_nil _)
    · rw [if_neg h] at hm
      exact alarmEvents_rf_mem (alarmFindall b) m hm

/-- C3, witness: the concrete alarm message `E3 Card Not Read` has the
fragment and is among the matches of its buffer. -/
theorem C3_witness :
    hasFrag exAlarmMsg = true ∧ exAlarmMsg ∈ alarmFindall exAlarmBuf :=
  (C3_theorem exAlarmBuf).2.2.1 exAlarmMsg (by decide)

/-- C4.  After the four classification passes the loop applies the size
cap: whenever the buffer exceeds 2000 characters it is replaced by exactly
its last 1000 characters; the buffer length at the end of every pass is at
most 2000; and a 2500-character buffer with no recognizable token becomes
its last 1000 characters after one pass. -/
theorem C4_theorem (b : List Char) :
    ((classifyPass b).2 = capBuffer (bufAfterCard b)) ∧
    (2000 < (bufAfterCard b).length →
      (classifyPass b).2 = (bufAfterCard b).drop ((bufAfterCard b).length - 1000) ∧
      (classifyPass b).2.length = 1000) ∧
    ((classifyPass b).2.length ≤ 2000) ∧
    (classifyPass (List.replicate 2500 'x') = ([], List.replicate 1000 'x')) := by
  have hsnd : (classifyPass b).2 = capBuffer (bufAfterCard b) := by
    simp only [classifyPass]
  refine ⟨hsnd, ?_, ?_, ?_⟩
  · intro h
    rw [hsnd]
    unfold capBuffer
    rw [if_pos h]
    refine ⟨rfl, ?_⟩
    rw [List.length_drop]
    omega
  · rw [hsnd]
    unfold capBuffer
    by_cases h : 2000 < (bufAfterCard b).length
    · rw [if_pos h, List.length_drop]
      omega
    · rw [if_neg h]
      omega
  · rw [classifyPass_rep 2500]
    have h1 : capBuffer (List.replicate 2500 'x') = List.replicate 1000 'x' := by
      unfold capBuffer
      rw [List.length_replicate, if_pos (by omega), List.drop_replicate]
    rw [h1]

/-- C4, witness: the 2500-character token-free buffer exceeds the cap and
is truncated to its last 1000 characters. -/
theorem C4_witness :
    (classifyPass (List.replicate 2500 'x')).2 =
      (bufAfterCard (List.replicate 2500 'x')).drop
        ((bufAfterCard (List.replicate 2500 'x')).length - 1000) ∧
    (classifyPass (List.replicate 2500 'x')).2.length = 1000 :=
  (C4_theorem (List.replicate 2500 'x')).2.1
    (by rw [bufAfterCard_rep, List.length_replicate]; omega)

/-- C5.  `send_card_http` returns true exactly when the POST — issued to
the URL `http://ip:port/path` with the leading slashes of `path` stripped
so exactly one `/` separates port and path, with body fields card and
timestamp and the `Content-Type: application/json` header — receives a
response (within the timeout, modelled by the transport returning `some`)
whose status code lies in `[200,300)`; on timeout or any transport error
(transport `none`) it returns false and never raises. -/
theorem C5_theorem (transport : Request → Option Nat) (ip : List Char) (port : Nat)
    (path card ts : List Char) :
    (send_card_http transport ip port path card ts = true ↔
      ∃ code, transport (mkRequest ip port path card ts) = some code ∧
        200 ≤ code ∧ code < 300) ∧
    ((mkRequest ip port path card ts).card = card ∧
      (mkRequest ip port path card ts).timestamp = ts) ∧
    ((mkRequest ip port path card ts).contentType = "application/json".toList) ∧
    ((mkRequest ip port path card ts).url =
      "http://".toList ++ ip ++ ':' :: (Nat.repr port).toList ++
        '/' :: path.dropWhile (fun c => c = '/')) ∧
    ((path.dropWhile (fun c => c = '/')).head? ≠ some '/') ∧
    (transport (mkRequest ip port path card ts) = none →
      send_card_http transport ip port path card ts = false) := by
  refine ⟨?_, ⟨rfl, rfl⟩, rfl, rfl, dropWhile_slash_head path, ?_⟩
  · cases h : transport (mkRequest ip port path card ts) with
    | none => simp [send_card_http, h]
    | some code => simp [send_card_http, h, decide_eq_true_iff]
  · intro h
    simp [send_card_http, h]

/-- C5, witness: a transport that never answers makes the dispatcher
return false. -/
theorem C5_witness :
    send_card_http (fun _ => none) ['h'] 9000 ['a'] ['S','4'] ['t'] = false :=
  (C5_theorem (fun _ => none) ['h'] 9000 ['a'] ['S','4'] ['t']).2.2.2.2.2 rfl

/-- C6.  Every successfully classified card is notified to observers with
`success = true`, regardless of the dispatcher's return value — the
notifications do not depend on the transport at all; one notification is
produced per card, so dispatch failure never halts the per-card loop; and a
server answering HTTP 500 makes the dispatcher itself return false. -/
theorem C6_theorem (transport : Request → Option Nat) (ip : List Char) (port : Nat)
    (path ts : List Char) (cards : List (List Char)) (c : List Char) :
    ((processCards transport ip port path ts cards).map Prod.fst =
      cards.map (fun c => (c, true))) ∧
    (∀ p ∈ processCards transport ip port path ts cards, p.1.2 = true) ∧
    ((processCards transport ip port path ts cards).length = cards.length) ∧
    (send_card_http (fun _ => some 500) ip port path c ts = false) := by
  refine ⟨?_, ?_, ?_, ?_⟩
  · simp [processCards]
  · intro p hp
    simp only [processCards, List.mem_map] at hp
    obtain ⟨a, _, rfl⟩ := hp
    rfl
  · simp [processCards]
  · rfl

/-- C6, witness: with one card and a transport that never answers, the
observer notification still reports the card with `success = true`, and a
500-answering transport yields a false dispatch result. -/
theorem C6_witness :
    ((processCards (fun _ => none) ['h'] 9000 ['a'] ['t'] [['S','4']]).map Prod.fst =
      [(['S','4'], true)]) ∧
    (((['S','4'], true), false) : (List Char × Bool) × Bool).1.2 = true ∧
    send_card_http (fun _ => some 500) ['h'] 9000 ['a'] ['S','4'] ['t'] = false := by
  have H := C6_theorem (fun _ => none) ['h'] 9000 ['a'] ['t'] [['S','4']] ['S','4']
  exact ⟨H.1, H.2.1 ((['S','4'], true), false) (by decide), H.2.2.2⟩

/-- C7, counterexample.  Open fails at time 0 and a stop is requested at
time 0.01 (1 centi-unit), during the 2.5-unit retry delay: the worker only
observes the stop after the full uninterruptible `time.sleep(RETRY_DELAY)`,
terminating at time 2.5 — NOT within one polling interval (0.05) of the
request, refuting the claimed bound. -/
theorem C7_counterexample :
    (runLoop (fun _ => OpenRes.fail) (fun _ => ReadRes.idle) 1 2
        ⟨0, false, [], 0, 0, [], false⟩).done = true ∧
    (runLoop (fun _ => OpenRes.fail) (fun _ => ReadRes.idle) 1 2
        ⟨0, false, [], 0, 0, [], false⟩).time = RETRY_DELAY_C ∧
    ¬ ((runLoop (fun _ => OpenRes.fail) (fun _ => ReadRes.idle) 1 2
        ⟨0, false, [], 0, 0, [], false⟩).time ≤ 1 + POLL_C) := by decide

/-- C7, amended.  If a stop is requested while the worker is sleeping out
the fixed retry delay after a failed open, the worker attempts no further
open (exactly the one failed attempt remains) and terminates, with no
handle held, at the END of the retry delay — i.e. within `RETRY_DELAY`
(2.5 time units) of the failed open, not within one polling interval of
the request. -/
theorem C7_theorem (eo : Nat → OpenRes) (er : Nat → ReadRes) (t0 ts n : Nat)
    (hfail : eo 0 = OpenRes.fail) (h1 : t0 < ts) (h2 : ts ≤ t0 + RETRY_DELAY_C) :
    (runLoop eo er ts (n + 2) ⟨t0, false, [], 0, 0, [], false⟩).done = true ∧
    (runLoop eo er ts (n + 2) ⟨t0, false, [], 0, 0, [], false⟩).ser = false ∧
    (runLoop eo er ts (n + 2) ⟨t0, false, [], 0, 0, [], false⟩).opens = 1 ∧
    (runLoop eo er ts (n + 2) ⟨t0, false, [], 0, 0, [], false⟩).time =
      t0 + RETRY_DELAY_C := by
  have hts : ¬ ts ≤ t0 := Nat.not_le.mpr h1
  have hstep : stepBody eo er ⟨t0, false, [], 0, 0, [], false⟩ =
      ⟨t0 + RETRY_DELAY_C, false, [], 1, 0, [(t0, Note.openError)], false⟩ := by
    unfold stepBody
    rw [if_pos rfl, hfail]
    rfl
  rw [runLoop, if_neg hts, hstep, runLoop, if_pos h2]
  exact ⟨rfl, rfl, rfl, rfl⟩

/-- C7, witness: open fails at time 0, stop requested at time 1 (0.01
units into the delay); the worker stops at time 2.5 with one open attempt
and no handle. -/
theorem C7_witness :
    (runLoop (fun _ => OpenRes.fail) (fun _ => ReadRes.idle) 100 2
        ⟨0, false, [], 0, 0, [], false⟩).done = true ∧
    (runLoop (fun _ => OpenRes.fail) (fun _ => ReadRes.idle) 100 2
        ⟨0, false, [], 0, 0, [], false⟩).ser = false ∧
    (runLoop (fun _ => OpenRes.fail) (fun _ => ReadRes.idle) 100 2
        ⟨0, false, [], 0, 0, [], false⟩).opens = 1 ∧
    (runLoop (fun _ => OpenRes.fail) (fun _ => ReadRes.idle) 100 2
        ⟨0, false, [], 0, 0, [], false⟩).time = 0 + RETRY_DELAY_C :=
  C7_theorem (fun _ => OpenRes.fail) (fun _ => ReadRes.idle) 0 100 0 rfl
    (by decide) (by decide)

/-- C8.  For every rank token in `{2..9, T, J, Q, K, A, 10}` and suit token
in `{C, D, H, S}`, in any letter case, normalization produces the
2-character code `suit + rank` with the literal `10` collapsed to `T` and
both characters uppercased, and re-embedding the normalized pair in a card
token and re-extracting it via the card pattern round-trips to the same
pair up to the `10 → T` collapse; normalization is idempotent on the
collapsed pair. -/
theorem C8_theorem (r : List Char) (s : Char)
    (hr : r ∈ validRankTok) (hs : s ∈ validSuitTok) :
    normCard r s = uc s :: rankOut r ∧
    (rankOut r).length = 1 ∧
    (normCard r s).length = 2 ∧
    (cardScan (" [Game]<Card:".toList ++ rankOut r ++ uc s :: "> ".toList)).found =
      [(rankOut r, uc s)] ∧
    normCard (rankOut r) (uc s) = normCard r s := by
  have H : ∀ x ∈ validRankTok, ∀ y ∈ validSuitTok,
      normCard x y = uc y :: rankOut x ∧
      (rankOut x).length = 1 ∧
      (normCard x y).length = 2 ∧
      (cardScan (" [Game]<Card:".toList ++ rankOut x ++ uc y :: "> ".toList)).found =
        [(rankOut x, uc y)] ∧
      normCard (rankOut x) (uc y) = normCard x y := by decide
  exact H r hr s hs

/-- C8, witness: the rank token `10` with suit `h` normalizes to `HT` and
round-trips through the card pattern as `(T, H)`. -/
theorem C8_witness :
    normCard ['1','0'] 'h' = uc 'h' :: rankOut ['1','0'] ∧
    (rankOut ['1','0']).length = 1 ∧
    (normCard ['1','0'] 'h').length = 2 ∧
    (cardScan (" [Game]<Card:".toList ++ rankOut ['1','0'] ++
        uc 'h' :: "> ".toList)).found = [(rankOut ['1','0'], uc 'h')] ∧
    normCard (rankOut ['1','0']) (uc 'h') = normCard ['1','0'] 'h' :=
  C8_theorem ['1','0'] 'h' (by decide) (by decide)

/-- C9.  Whenever `parse_cards_from_buffer` returns a non-empty list for
the current buffer, the card-pattern match data recomputed over that same
buffer is also non-empty — in particular a suffix after the last match
exists, so the trim `buffer[last_match.end():]` that indexes the last
match never fails, and the card stage's residual buffer is exactly that
suffix. -/
theorem C9_theorem (b : List Char) (h : parse_cards_from_buffer b ≠ []) :
    (cardScan b).found ≠ [] ∧
    (cardScan b).tailAfter ≠ none ∧
    (cardStage b).2 = ((cardScan b).tailAfter).getD b := by
  have hf : (cardScan b).found ≠ [] := by
    intro he
    apply h
    unfold parse_cards_from_buffer
    rw [he]
    rfl
  refine ⟨hf, ?_, ?_⟩
  · intro ht
    exact hf (scanGo_tail_none matchCard b.length b ht)
  · unfold cardStage
    rw [if_neg h]

/-- C9, witness: a buffer with one card token has non-empty parse results
and non-empty match data with a well-defined trim suffix. -/
theorem C9_witness :
    (cardScan exCardBuf).found ≠ [] ∧
    (cardScan exCardBuf).tailAfter ≠ none ∧
    (cardStage exCardBuf).2 = ((cardScan exCardBuf).tailAfter).getD exCardBuf :=
  C9_theorem exCardBuf (by decide)

/-- C10.  The monitoring loop never terminates because of an exception: a
serial read error emits exactly one disconnected notification, clears the
handle and delays by the retry time (after which, with no handle, the next
iteration attempts an open — re-entering connecting); any other exception
during a read cycle is swallowed with a 0.1-unit pause, leaving the
handle, the buffer and the notification list untouched; and the loop's
done flag is only ever set by observing the stop request, whose time bounds
the final clock. -/
theorem C10_theorem (eo : Nat → OpenRes) (er : Nat → ReadRes) (s : MState) :
    (s.ser = true → er s.reads = ReadRes.serialErr →
      stepBody eo er s =
        { s with reads := s.reads + 1, ser := false,
                 notes := s.notes ++ [(s.time, Note.disconnected)],
                 time := s.time + RETRY_DELAY_C }) ∧
    (s.ser = true → er s.reads = ReadRes.otherExc →
      stepBody eo er s = { s with reads := s.reads + 1, time := s.time + EXC_PAUSE_C }) ∧
    (s.ser = false → (stepBody eo er s).opens = s.opens + 1) ∧
    (∀ ts n, s.done = false → (runLoop eo er ts n s).done = true →
      ts ≤ (runLoop eo er ts n s).time) := by
  refine ⟨?_, ?_, ?_, ?_⟩
  · intro h1 h2
    unfold stepBody
    rw [if_neg (by simp [h1])]
    unfold readPhase
    rw [h2]
  · intro h1 h2
    unfold stepBody
    rw [if_neg (by simp [h1])]
    unfold readPhase
    rw [h2]
  · intro h
    unfold stepBody
    rw [if_pos h]
    cases eo s.opens
    · rw [readPhase_opens]
    · rfl
  · intro ts n
    exact runLoop_done_le eo er ts n s

/-- C10, witness: concrete instances of the three exception-path equations
and of the stop-only termination bound. -/
theorem C10_witness :
    (stepBody (fun _ => OpenRes.ok) (fun _ => ReadRes.serialErr)
        ⟨7, true, ['z'], 3, 4, [], false⟩ =
      ⟨7 + RETRY_DELAY_C, false, ['z'], 3, 5, [(7, Note.disconnected)], false⟩) ∧
    (stepBody (fun _ => OpenRes.ok) (fun _ => ReadRes.otherExc)
        ⟨7, true, ['z'], 3, 4, [], false⟩ =
      ⟨7 + EXC_PAUSE_C, true, ['z'], 3, 5, [], false⟩) ∧
    ((stepBody (fun _ => OpenRes.fail) (fun _ => ReadRes.idle)
        ⟨0, false, [], 0, 0, [], false⟩).opens = 0 + 1) ∧
    (99 ≤ (runLoop (fun _ => OpenRes.fail) (fun _ => ReadRes.idle) 99 3
        ⟨0, false, [], 0, 0, [], false⟩).time) := by
  refine ⟨?_, ?_, ?_, ?_⟩
  · exact (C10_theorem (fun _ => OpenRes.ok) (fun _ => ReadRes.serialErr)
      ⟨7, true, ['z'], 3, 4, [], false⟩).1 rfl rfl
  · exact (C10_theorem (fun _ => OpenRes.ok) (fun _ => ReadRes.otherExc)
      ⟨7, true, ['z'], 3, 4, [], false⟩).2.1 rfl rfl
  · exact (C10_theorem (fun _ => OpenRes.fail) (fun _ => ReadRes.idle)
      ⟨0, false, [], 0, 0, [], false⟩).2.2.1 rfl
  · exact (C10_theorem (fun _ => OpenRes.fail) (fun _ => ReadRes.idle)
      ⟨0, false, [], 0, 0, [], false⟩).2.2.2 99 3 rfl (by decide)

end ShoeMonitor
